import Mathlib

/-!
Verification development for the dataplug repository.

The definitions below are a shallow embedding of the FASTA map/reduce
indexer in `cloudnative_datasets/genomics/sequence.py` and of the chunk
partitioner in `cloudnative_datasets/cobase.py` (method `__local_preprocess`).

Python text is modelled as `List Char`; Python exceptions (IndexError,
ValueError, ZeroDivisionError, and the two configuration Exceptions of
`__local_preprocess`) are modelled by an `Except Err` result.
-/

/-- Python text is modelled as a list of characters. -/
abbrev Str := List Char

/-- The Python exceptions that the modelled code can raise.
`floatBoundError` is not a Python exception: it is the model-boundary
marker returned by the partitioner model on inputs outside the region
where its integer arithmetic is proven to agree with the float
arithmetic of the source (see `CloudObject.localPreprocessRanges`). -/
inductive Err where
  | indexError : Err
  | valueError : Err
  | zeroDivError : Err
  | cfgBothError : Err
  | cfgNeitherError : Err
  | floatBoundError : Err
deriving DecidableEq, Repr

/-- One per-chunk result of `FASTAPreprocesser.map`: the Python dict
`{min_range, max_range, sequences}`. -/
structure PRecord where
  minRange : Nat
  maxRange : Nat
  sequences : List Str
deriving DecidableEq, Repr, Inhabited

/-- Boolean test that `p` is a prefix of `s` (Python startswith). -/
def isPre : Str → Str → Bool
  | [], _ => true
  | _ :: _, [] => false
  | a :: as, b :: bs => a == b && isPre as bs

/-- Python `sub in s` substring test. -/
def containsSub (needle : Str) : Str → Bool
  | [] => needle.isEmpty
  | c :: rest => isPre needle (c :: rest) || containsSub needle rest

/-- Fuel-driven core of `pyReplace`; the fuel `s.length` always suffices
because every step consumes at least one character. -/
def pyReplaceAux (old new : Str) : Nat → Str → Str
  | 0, s => s
  | _ + 1, [] => []
  | fuel + 1, c :: rest =>
    if !old.isEmpty && isPre old (c :: rest) then
      new ++ pyReplaceAux old new fuel ((c :: rest).drop old.length)
    else
      c :: pyReplaceAux old new fuel rest

/-- Python `s.replace(old, new)`: replaces every non-overlapping occurrence
of `old`, scanning left to right.  (The modelled code never calls `replace`
with an empty `old`; for an empty `old` this model returns `s` unchanged.) -/
def pyReplace (old new s : Str) : Str := pyReplaceAux old new s.length s

/-- Python `s.split(sep)` for a one-character separator: splits at every
occurrence and keeps empty fields, so the result is never the empty list. -/
def splitChar (sep : Char) : Str → List Str
  | [] => [[]]
  | c :: rest =>
    if c = sep then [] :: splitChar sep rest
    else
      match splitChar sep rest with
      | [] => [[c]]
      | g :: gs => (c :: g) :: gs

/-- Number of characters of `s` other than a newline: the length of the
Python expression `s.replace('\n', '')`. -/
def nonNL (s : Str) : Nat := (s.filter fun c => c != '\n').length

/-- Decimal rendering of a natural number, as Python `str` on a
non-negative int. -/
def natToStr (n : Nat) : Str := Nat.toDigits 10 n

/-- Decimal rendering of an integer, as Python `str`. -/
def intToStr (i : Int) : Str :=
  if i < 0 then '-' :: natToStr i.natAbs else natToStr i.toNat

/-- Accumulator loop of `pyInt`. -/
def pyIntAux : Str → Nat → Except Err Nat
  | [], acc => .ok acc
  | c :: rest, acc =>
    if '0' ≤ c ∧ c ≤ '9' then pyIntAux rest (acc * 10 + (c.toNat - '0'.toNat))
    else .error .valueError

/-- Python `int(s)` on the strings the modelled code produces: a non-empty
all-digit string parses to its value, anything else raises ValueError.
(Signs and surrounding whitespace, which the code never produces, are not
accepted by this model.) -/
def pyInt (s : Str) : Except Err Nat :=
  if s.isEmpty then .error .valueError else pyIntAux s 0

/-- Normalisation of one Python slice bound against a string of length `n`:
negative indices count from the end and both directions clamp. -/
def pyBound (n : Nat) (i : Int) : Nat :=
  if i < 0 then ((n : Int) + i).toNat else min n i.toNat

/-- Python `s[a:b]` with int (possibly negative) bounds. -/
def pySlice (s : Str) (a b : Int) : Str :=
  (s.take (pyBound s.length b)).drop (pyBound s.length a)

/-- Python `l[n]` for a non-negative index on a list of strings:
out-of-range raises IndexError. -/
def idxE (l : List Str) (n : Nat) : Except Err Str :=
  match l.get? n with
  | some a => .ok a
  | none => .error .indexError

/-- Python list index normalisation for a possibly negative index `x`
against length `n`: negative indices count from the end, anything out of
range raises IndexError. -/
def pyListIdx (n : Nat) (x : Int) : Except Err Nat :=
  if 0 ≤ x then
    if x < (n : Int) then .ok x.toNat else .error .indexError
  else
    if -x ≤ (n : Int) then .ok (((n : Int) + x).toNat) else .error .indexError

/-- Python `range(a, b)` as a list of integers (empty when `b ≤ a`). -/
def intRangeL (a : Int) (b : Nat) : List Int :=
  (List.range ((b - a).toNat)).map fun k => a + k

/-- Index of the first newline of `s`, if any. -/
def firstNL : Str → Option Nat
  | [] => none
  | c :: rest => if c = '\n' then some 0 else (firstNL rest).map (· + 1)

/-- Start positions of the matches of the regex `\n>` in `data`
(`ini_heads` in `FASTAPreprocesser.map`): the positions carrying a newline
immediately followed by a greater-than sign. -/
def iniHeads (data : Str) : List Nat :=
  (List.range data.length).filter fun i =>
    data.getD i ' ' == '\n' && data.getD (i + 1) ' ' == '>'

/-- Positions of the newlines of `s` (used for the matches of `.*\n`:
the k-th match of `.*\n` is the k-th newline-terminated line). -/
def nlIndices (s : Str) : List Nat :=
  (List.range s.length).filter fun i => s.getD i ' ' == '\n'

/-- Fuel-driven scanner for the non-overlapping matches of the regex
`>.+\n` (`heads` in `FASTAPreprocesser.map`): at a greater-than sign
followed by at least one non-newline character and then a newline, a match
spans up to and including that newline, and scanning resumes after it. -/
def headsAux : Nat → Str → Nat → List (Nat × Nat)
  | 0, _, _ => []
  | _ + 1, [], _ => []
  | fuel + 1, c :: rest, p =>
    if c = '>' then
      match firstNL rest with
      | some j =>
        if 1 ≤ j then
          (p, p + j + 2) :: headsAux fuel ((c :: rest).drop (j + 2)) (p + j + 2)
        else headsAux fuel rest (p + 1)
      | none => headsAux fuel rest (p + 1)
    else headsAux fuel rest (p + 1)

/-- All matches `(start, end)` of `>.+\n` in `data`, in order. -/
def headsList (data : Str) : List (Nat × Nat) := headsAux data.length data 0

namespace FASTAPreprocesser

/-- `FASTAPreprocesser.__get_length`: append the newline-free length of
`data[start_base - min_range : end_base - min_range]` to the last entry of
`content`; an empty `content` raises IndexError (Python `content[-1]`). -/
def getLength (minRange : Nat) (content : List Str) (data : Str)
    (startBase endBase : Int) : Except Err (List Str) :=
  let lenBase := nonNL (pySlice data (startBase - (minRange : Int)) (endBase - (minRange : Int)))
  match content.getLast? with
  | none => .error .indexError
  | some last => .ok (content.dropLast ++ [last ++ (' ' :: natToStr lenBase)])

/-- State of the `for m in heads` loop of `FASTAPreprocesser.map`. -/
structure ScanState where
  firstSequence : Bool
  prev : Int
  content : List Str
deriving DecidableEq, Repr

/-- One iteration of the `for m in heads` loop of `FASTAPreprocesser.map`,
for the match `m = (start, end)` given in in-chunk positions. -/
def scanStep (data : Str) (minRange workerId : Nat) (st : ScanState)
    (m : Nat × Nat) : Except Err ScanState :=
  let start0 : Int := (minRange : Int) + m.1
  let end0 : Int := (minRange : Int) + m.2
  -- the `if first_sequence` block; it may reset the flag and force
  -- start = end = -1 on a false-positive first head
  let step1 : ScanState × Int × Int :=
    if st.firstSequence then
      if workerId > 0 ∧ start0 - 1 > (minRange : Int) then
        let pre := data.take m.1
        match nlIndices pre with
        | [] => (⟨true, st.prev, st.content⟩, -1, -1)
        | n0 :: restNl =>
          -- match_text[0] is the line [0, n0]; match_text[1], when any,
          -- is the line starting at n0 + 1
          let text := (splitChar ' ' (pre.take (n0 + 1))).headD []
          let length0 := nonNL pre
          let offset0 := minRange
          let pair :=
            if restNl.isEmpty then (natToStr offset0, natToStr length0)
            else
              (natToStr offset0 ++ ('-' :: natToStr (n0 + 1 + minRange)),
               natToStr length0 ++ ('-' :: natToStr (nonNL (pre.drop (n0 + 1)))))
          let entry := ">> <X> <Y> ".toList ++ pair.1 ++ (' ' :: pair.2) ++
            " ^".toList ++ text ++ ['^']
          (⟨false, st.prev, st.content ++ [entry]⟩, start0, end0)
      else (⟨false, st.prev, st.content⟩, start0, end0)
    else (⟨false, st.prev, st.content⟩, start0, end0)
  let st1 := step1.1
  let start1 := step1.2.1
  let end1 := step1.2.2
  if st1.prev ≠ start1 then do
    let content2 ←
      if st1.prev ≠ -1 then getLength minRange st1.content data st1.prev start1
      else .ok st1.content
    let grp := (data.take m.2).drop m.1
    let nameField := ((splitChar ' ' grp).headD []).filter fun c => c != '>'
    .ok ⟨st1.firstSequence, end1,
      content2 ++ [nameField ++ " 1 ".toList ++ intToStr start1 ++ (' ' :: intToStr end1)]⟩
  else .ok ⟨st1.firstSequence, end1, st1.content⟩

/-- `max_range` of `FASTAPreprocesser.map`: the object size for the last
worker, otherwise the end of this worker's chunk. -/
def maxRangeOf (workerId chunkSize objSize partitions : Nat) : Nat :=
  if (workerId : Int) = (partitions : Int) - 1 then objSize
  else (workerId + 1) * chunkSize

/-- Body of `FASTAPreprocesser.map` once the `ini_heads or data[0] == '>'`
guard has passed: the loop over `heads`, then the split-tail check, which
indexes `ini_heads[-1]` and `heads[-1]` and so raises IndexError when
either list is empty. -/
def mapBody (data : Str) (workerId chunkSize objSize partitions : Nat) :
    Except Err PRecord :=
  let minRange := workerId * chunkSize
  let maxRange := maxRangeOf workerId chunkSize objSize partitions
  let hs := headsList data
  (do
    let st ← hs.foldlM (scanStep data minRange workerId) ⟨true, -1, []⟩
    match (iniHeads data).getLast? with
    | none => Except.error Err.indexError
    | some lastIni =>
      match hs.getLast? with
      | none => Except.error Err.indexError
      | some lastHead =>
        if lastIni + 1 > lastHead.1 then do
          let lastSeqStart := lastIni + minRange + 1
          let content1 ←
            if hs.length ≠ 0 then
              getLength minRange st.content data st.prev (lastSeqStart : Int)
            else .ok st.content
          let text := data.drop (lastIni + 1)
          let tag := if text.contains ' ' then "<-".toList else "<_".toList
          Except.ok (content1 ++
            [tag ++ (splitChar ' ' text).headD [] ++ (' ' :: natToStr lastSeqStart)])
        else
          if hs.length ≠ 0 then
            getLength minRange st.content data st.prev (maxRange : Int)
          else .ok st.content
  ).map fun content => ⟨minRange, maxRange, content⟩

/-- `FASTAPreprocesser.map`.  The guard `if ini_heads or data[0] == '>'`
evaluates `data[0]` only when `ini_heads` is empty, so an empty chunk
raises IndexError there; when the guard fails the record is returned with
an empty sequence list. -/
def map (data : Str) (workerId chunkSize objSize partitions : Nat) :
    Except Err PRecord :=
  match iniHeads data with
  | _ :: _ => mapBody data workerId chunkSize objSize partitions
  | [] =>
    match data with
    | [] => .error .indexError
    | c :: _ =>
      if c = '>' then mapBody data workerId chunkSize objSize partitions
      else .ok ⟨workerId * chunkSize, maxRangeOf workerId chunkSize objSize partitions, []⟩

/-- One step of the backward walk of `FASTAPreprocesser.reduce`
(`results[x]['sequences'][-1] = ....replace(f' {split} ', f' {split + 1} ')`). -/
def walkUpd (split : Nat) (rs : List PRecord) (x : Int) :
    Except Err (List PRecord) := do
  let j ← pyListIdx rs.length x
  let r := rs.getD j default
  match r.sequences.getLast? with
  | none => .error .indexError
  | some last =>
    let newLast :=
      pyReplace (' ' :: (natToStr split ++ [' '])) (' ' :: (natToStr (split + 1) ++ [' '])) last
    .ok (rs.set j { r with sequences := r.sequences.dropLast ++ [newLast] })

/-- The guard `seq_range_prev and dictio and '>>' in dictio[0]` of the
loop of `FASTAPreprocesser.reduce` (the `i > 0` conjunct is handled in
`reduceStep`): the previous and current sequence lists are non-empty and
the current first entry carries the head-split tag. -/
def stitchGuard (rs : List PRecord) (i : Nat) : Bool :=
  !(rs.getD (i - 1) default).sequences.isEmpty &&
  !(rs.getD i default).sequences.isEmpty &&
  containsSub ">>".toList ((rs.getD i default).sequences.headD [])

/-- The stitching block of `FASTAPreprocesser.reduce` (run when the guard
holds): the two resolution branches and the final rewriting of the
head-split marker in place. -/
def stitchBody (rs : List PRecord) (i : Nat) : Except Err (List PRecord) :=
  let dict := rs.getD i default
  let dictio := dict.sequences
  let dictPrev := rs.getD (i - 1) default
  let seqRangePrev := dictPrev.sequences
  let s0 := dictio.headD []
  (do
    let param := splitChar ' ' s0
    let seqPrev := seqRangePrev.getLastD []
    let paramSeqPrev := splitChar ' ' seqPrev
    let res ←
      if containsSub "<->".toList seqPrev || containsSub "<_>".toList seqPrev then do
        let nameId ←
          if containsSub "<->".toList seqPrev then
            Except.ok (pyReplace "<->".toList [] (paramSeqPrev.headD []))
          else do
            let p5 ← idxE param 5
            Except.ok (pyReplace "<_>".toList [] (paramSeqPrev.headD []) ++
              pyReplace ['^'] [] p5)
        let p4 ← idxE param 4
        let lengthS ← idxE (splitChar '-' p4) 1
        let offsetHead ← idxE paramSeqPrev 1
        let p3 ← idxE param 3
        let offsetBase ← idxE (splitChar '-' p3) 1
        let v ← pyInt offsetHead
        let rs1 := rs.set (i - 1)
          { dictPrev with sequences := seqRangePrev.dropLast, maxRange := v }
        let rs2 := rs1.set i { dict with minRange := v }
        Except.ok (rs2, nameId, lengthS, offsetHead, offsetBase, 0)
      else do
        let p4 ← idxE param 4
        let lengthS := (splitChar '-' p4).headD []
        let nameId := paramSeqPrev.headD []
        let offsetHead ← idxE paramSeqPrev 2
        let p3 ← idxE param 3
        let offsetBase := (splitChar '-' p3).headD []
        let s1 ← idxE paramSeqPrev 1
        let split ← pyInt s1
        let rs1 ← (intRangeL ((i : Int) - split) i).foldlM (walkUpd split) rs
        Except.ok (rs1, nameId, lengthS, offsetHead, offsetBase, split)
    let rsNew := res.1
    let nameId := res.2.1
    let lengthS := res.2.2.1
    let offsetHead := res.2.2.2.1
    let offsetBase := res.2.2.2.2.1
    let split := res.2.2.2.2.2
    let p5 ← idxE param 5
    let p3 ← idxE param 3
    let p4 ← idxE param 4
    let t1 := pyReplace (' ' :: p5) [] s0
    let t2 := pyReplace (' ' :: (p3 ++ [' '])) (' ' :: (offsetBase ++ [' '])) t1
    let t3 := pyReplace (' ' :: p4) (' ' :: lengthS) t2
    let t4 := pyReplace " <X> ".toList (' ' :: (natToStr (split + 1) ++ [' '])) t3
    let t5 := pyReplace " <Y> ".toList (' ' :: (offsetHead ++ [' '])) t4
    let t6 := pyReplace ">> ".toList (nameId ++ [' ']) t5
    let cur := rsNew.getD i default
    Except.ok (rsNew.set i { cur with sequences := t6 :: cur.sequences.tail }))

/-- One iteration (index `i`) of the loop of `FASTAPreprocesser.reduce`:
index 0 and a failing guard leave the list unchanged; otherwise the
stitching block runs on the current list state. -/
def reduceStep (rs : List PRecord) (i : Nat) : Except Err (List PRecord) :=
  if i = 0 then .ok rs
  else if stitchGuard rs i then stitchBody rs i
  else .ok rs

/-- `FASTAPreprocesser.reduce`: a single in-order pass over the record
list, skipped entirely when the list has at most one element. -/
def reduce (rs : List PRecord) : Except Err (List PRecord) :=
  if rs.length > 1 then (List.range rs.length).foldlM reduceStep rs
  else .ok rs

end FASTAPreprocesser

/-- Python `round(a / b)` on the exact ratio `a / b`: round half to even.
Used by `__local_preprocess` for the `num_workers` configuration; the call
site in `CloudObject.localPreprocessRanges` guards the region
`a < 2 ^ 52` and `b < 2 ^ 52`, on which this agrees with CPython `round`
applied to the correctly rounded float quotient. -/
def pyRoundDiv (a b : Nat) : Nat :=
  let q := a / b
  let r := a % b
  if 2 * r < b then q else if b < 2 * r then q + 1
  else if q % 2 = 0 then q else q + 1

/-- The byte ranges generated by the loop of `CloudObject.__local_preprocess`:
`r0 = i * chunk_size`, `r1 = min((i + 1) * chunk_size, obj_size)`. -/
def rangesFor (iterations chunkSize objSize : Nat) : List (Nat × Nat) :=
  (List.range iterations).map fun i =>
    (i * chunkSize, min ((i + 1) * chunkSize) objSize)

namespace CloudObject

/-- The configuration check and range computation of
`CloudObject.__local_preprocess` (map/reduce branch, lines 200 to 214):
both or neither of `chunk_size` / `num_workers` raise the configuration
Exceptions, a zero divisor raises ZeroDivisionError inside the
arithmetic, and otherwise the byte ranges of all iterations are produced.

The source computes `math.ceil(obj_size / chunk_size)` and
`round(obj_size / num_workers)` through CPython float division, which
yields the correctly rounded binary64 value of the true quotient.  For
`obj_size < 2 ^ 53` and `chunk_size < 2 ^ 53` the ceiling of that float
equals the exact ceiling modelled here: with `n` an integer and
`q = obj_size / chunk_size`, rounding a `q ≤ n` up past the representable
`n` is impossible by monotonicity of correct rounding, and rounding a
`q > n` down onto `n` would need `1 / chunk_size ≤ ulp(n) / 2`, hence
`n * chunk_size ≥ 2 ^ 53 > obj_size > n * chunk_size`, a contradiction
(the bound on `chunk_size` rules out the underflow-to-zero case `n = 0`).
Likewise `round` of the float agrees with round-half-to-even of the exact
ratio (`pyRoundDiv`) for `obj_size < 2 ^ 52` and `num_workers < 2 ^ 52`,
where every half-integer below `obj_size` is representable and a spurious
hit of one is ruled out the same way.  Outside these regions the float
result can differ — in CPython `math.ceil((2 ^ 53 + 1) / 1) = 2 ^ 53`,
and astronomically large quotients raise OverflowError — so there the
model abstains with the model-boundary marker `floatBoundError` instead
of asserting ranges the program might not produce. -/
def localPreprocessRanges (chunkSize numWorkers : Option Nat) (objSize : Nat) :
    Except Err (List (Nat × Nat)) :=
  match chunkSize, numWorkers with
  | some _, some _ => .error .cfgBothError
  | some cs, none =>
    if cs = 0 then .error .zeroDivError
    else if objSize < 2 ^ 53 ∧ cs < 2 ^ 53 then
      .ok (rangesFor ((objSize + cs - 1) / cs) cs objSize)
    else .error .floatBoundError
  | none, some nw =>
    if nw = 0 then .error .zeroDivError
    else if objSize < 2 ^ 52 ∧ nw < 2 ^ 52 then
      .ok (rangesFor nw (pyRoundDiv objSize nw) objSize)
    else .error .floatBoundError
  | none, none => .error .cfgNeitherError

end CloudObject

/-- Whether a `__local_preprocess` outcome is one of the two configuration
Exceptions (as opposed to a success or another error). -/
def isCfgError : Except Err (List (Nat × Nat)) → Bool
  | .error .cfgBothError => true
  | .error .cfgNeitherError => true
  | _ => false

/-- The chunk of `text` handed to worker `i`: the partitioner's half-open
byte range `[i * cs, min((i + 1) * cs, len))`. -/
def chunkOf (text : Str) (cs i : Nat) : Str :=
  (text.take (min ((i + 1) * cs) text.length)).drop (i * cs)

/-- End-to-end run of the map/reduce preprocessor on a whole object held
in `text`, partitioned with chunk size `cs`: map each chunk in worker
order, then reduce the ordered records. -/
def runPipeline (text : Str) (cs : Nat) : Except Err (List PRecord) := do
  let obj := text.length
  let parts := (obj + cs - 1) / cs
  let recs ← (List.range parts).mapM fun i =>
    FASTAPreprocesser.map (chunkOf text cs i) i cs obj parts
  FASTAPreprocesser.reduce recs

/-- The object of the end-to-end claim. -/
def c1Text : Str := ">s1\nAAAA\n>s2\nCCCC\n".toList

/-!
Claim theorems.
-/

/-- C1: the end-to-end claim fails on the code.  For the object
`">s1\nAAAA\n>s2\nCCCC\n"` partitioned into 2 workers with the chunk
boundary inside the header line of `s2` (every qualifying boundary: byte
10, 11 or 12, i.e. chunk sizes 10, 11 and 12), the second chunk contains
no header at all, so `map` emits an empty sequence list for it, `reduce`
finds no head-split marker to stitch, and the pipeline output keeps the
unresolved tail-split placeholder of `s2` instead of a resolved entry
with span count 2; no produced entry even has span-count field `2`. -/
theorem c1_end_to_end_leaves_marker_unresolved :
    runPipeline c1Text 10 =
      .ok [⟨0, 10, ["s1\n 1 0 4 4".toList, "<_> 9".toList]⟩, ⟨10, 18, []⟩] ∧
    runPipeline c1Text 11 =
      .ok [⟨0, 11, ["s1\n 1 0 4 4".toList, "<_>s 9".toList]⟩, ⟨11, 18, []⟩] ∧
    runPipeline c1Text 12 =
      .ok [⟨0, 12, ["s1\n 1 0 4 4".toList, "<_>s2 9".toList]⟩, ⟨12, 18, []⟩] ∧
    (["s1\n 1 0 4 4".toList, "<_>s 9".toList].all fun s =>
      (splitChar ' ' s).getD 1 [] != "2".toList) = true :=
  ⟨rfl, rfl, rfl, rfl⟩

/-- C6: the single-chunk claim fails because the code crashes.  On the
single-chunk object `">s1\nAAAA\n"` (one header line, body of 4 bases)
`map` raises IndexError: with only one header there is no newline-preceded
header start, so `ini_heads` is empty and `ini_heads[-1]` at the split-tail
check fails, instead of returning the one expected sequence entry. -/
theorem c6_single_chunk_single_header_raises :
    FASTAPreprocesser.map ">s1\nAAAA\n".toList 0 9 9 1 = .error .indexError :=
  rfl

/-- C10: `map` is not total.  It raises IndexError on `">abc\n"` (begins
with a greater-than sign but has no newline-preceded header start, so
`ini_heads[-1]` fails) and on `"AAAA\n>se"` (has a newline-preceded
greater-than sign but no complete `>.+\n` header line, so `heads[-1]`
fails). -/
theorem c10_map_not_total_on_spec_chunks :
    FASTAPreprocesser.map ">abc\n".toList 0 5 5 1 = .error .indexError ∧
    FASTAPreprocesser.map "AAAA\n>se".toList 1 8 16 2 = .error .indexError :=
  ⟨rfl, rfl⟩

/-- C3 counterexample: a record list in which the first entry of record 1
is a head-split marker while record 0 ends with a regular sequence entry
(not a tail-split marker of either variant).  `reduce` raises nothing: it
returns a fully rewritten output, so the claimed malformed-partition-
boundary error does not exist in the code. -/
theorem c3_cex_no_error_without_tail_marker :
    FASTAPreprocesser.reduce
      [⟨0, 10, ["abc 1 0 4 9".toList]⟩,
       ⟨10, 20, [">> <X> <Y> 12-15 3-6 ^q\n^".toList]⟩] =
    .ok [⟨0, 10, ["abc 2 0 4 9".toList]⟩,
         ⟨10, 20, ["abc 2 0 12 3".toList]⟩] :=
  rfl

/-- C3 amended: when a head-split marker follows a record whose last entry
is a regular sequence entry, `reduce` raises no error and resolves the
marker through the body-continuation path: the name, span count and header
offset come from that previous entry, the first candidate pair from the
marker (offset 50, length 7 here, not 60 and 9), the span count of the
trailing entry of the prior record is incremented, and the resolved entry
carries the incremented span count; the chunk ranges are untouched. -/
theorem c3_amended_continuation_path :
    FASTAPreprocesser.reduce
      [⟨0, 40, ["nm 1 2 3 4".toList]⟩,
       ⟨40, 80, [">> <X> <Y> 50-60 7-9 ^t^".toList]⟩] =
    .ok [⟨0, 40, ["nm 2 2 3 4".toList]⟩,
         ⟨40, 80, ["nm 2 2 50 7".toList]⟩] :=
  rfl

/-- C4 counterexample: a partial-id tail-split (`<_>` variant) followed by
a head-split marker carrying candidate pairs (10, 2) and (13, 5).  The
claim says the first pair is selected; the code selects the second pair
(offset 13, length 5), so the resolved entry differs from the entry the
claim would produce. -/
theorem c4_cex_partial_id_takes_second_pair :
    FASTAPreprocesser.reduce
      [⟨0, 10, ["<_>se 9".toList]⟩,
       ⟨10, 20, [">> <X> <Y> 10-13 2-5 ^q2\n^".toList]⟩] =
    .ok [⟨0, 9, []⟩, ⟨9, 20, ["seq2\n 1 9 13 5".toList]⟩] ∧
    "seq2\n 1 9 13 5".toList ≠ "seq2\n 1 9 10 2".toList :=
  ⟨rfl, by decide⟩

/-- C4 amended: for both tail-split variants the second candidate pair of
the head-split marker is selected.  Complete-id (`<->`): the previous id
is used unchanged and the resolved entry carries the second pair (23, 5);
partial-id (`<_>`): the previous id is concatenated with the raw
continuation text and the resolved entry again carries the second pair
(43, 5); in both variants the previous marker is popped and both chunk
ranges are moved to the resolved header offset. -/
theorem c4_amended_both_variants_second_pair :
    FASTAPreprocesser.reduce
      [⟨0, 15, ["<->seq9 7".toList]⟩,
       ⟨15, 60, [">> <X> <Y> 20-23 2-5 ^q2\n^".toList]⟩] =
    .ok [⟨0, 7, []⟩, ⟨7, 60, ["seq9 1 7 23 5".toList]⟩] ∧
    FASTAPreprocesser.reduce
      [⟨0, 35, ["<_>se 30".toList]⟩,
       ⟨35, 60, [">> <X> <Y> 40-43 2-5 ^q2\n^".toList]⟩] =
    .ok [⟨0, 30, []⟩, ⟨30, 60, ["seq2\n 1 30 43 5".toList]⟩] :=
  ⟨rfl, rfl⟩

/-- C5 counterexample: `reduce` resolves a partial-id tail-split at record
2, yet no span-count walk happens: the trailing entry of the prior record
0 is left at span count 1 unchanged, and the resolved entry of the
sequence that spans two chunks carries span count 1, not 2.  The tail-split
marker `"<_>se 9"` has no span-count field to read a split count from. -/
theorem c5_cex_partial_id_does_not_walk :
    FASTAPreprocesser.reduce
      [⟨0, 5, ["ab 1 0 2 3".toList]⟩,
       ⟨5, 10, ["<_>se 9".toList]⟩,
       ⟨10, 20, [">> <X> <Y> 10-13 2-5 ^q2\n^".toList]⟩] =
    .ok [⟨0, 5, ["ab 1 0 2 3".toList]⟩, ⟨5, 9, []⟩,
         ⟨9, 20, ["seq2\n 1 9 13 5".toList]⟩] ∧
    "seq2\n 1 9 13 5".toList ≠ "seq2\n 2 9 13 5".toList :=
  ⟨rfl, by decide⟩

/-- C5 amended: the backward span-count walk happens in the
body-continuation case, not the partial-id case.  First conjunct: when the
record before the head-split marker ends with a regular entry whose
span-count field is 2, the trailing entries of the prior 2 records are
each bumped from 2 to 3 and the resolved entry carries span count 3.
Second conjunct: a partial-id tail-split resolution at record 2 runs with
split 0 and touches no prior record (span count of record 0 stays 4), and
the resolved entry carries span count 1. -/
theorem c5_amended_walk_location :
    FASTAPreprocesser.reduce
      [⟨0, 100, ["nm 2 0 4 5".toList]⟩,
       ⟨100, 200, ["nm 2 100 104 6".toList]⟩,
       ⟨200, 300, [">> <X> <Y> 200-210 7-8 ^x^".toList]⟩] =
    .ok [⟨0, 100, ["nm 3 0 4 5".toList]⟩, ⟨100, 200, ["nm 3 100 104 6".toList]⟩,
         ⟨200, 300, ["nm 3 100 200 7".toList]⟩] ∧
    FASTAPreprocesser.reduce
      [⟨0, 12, ["cd 4 0 2 3".toList]⟩,
       ⟨12, 29, ["<_>ab 30".toList]⟩,
       ⟨29, 50, [">> <X> <Y> 31-40 5-6 ^z^".toList]⟩] =
    .ok [⟨0, 12, ["cd 4 0 2 3".toList]⟩, ⟨12, 30, []⟩,
         ⟨30, 50, ["abz 1 30 40 6".toList]⟩] :=
  ⟨rfl, rfl⟩

/-- Helper for C7: a chunk with no newline-preceded greater-than sign has
no `ini_heads` match. -/
theorem iniHeads_eq_nil_of (data : Str)
    (h : ∀ i, i < data.length →
      ¬(data.getD i ' ' = '\n' ∧ data.getD (i + 1) ' ' = '>')) :
    iniHeads data = [] := by
  unfold iniHeads
  rw [List.filter_eq_nil_iff]
  intro i hi
  have hilen : i < data.length := List.mem_range.mp hi
  have := h i hilen
  simp only [Bool.and_eq_true, beq_iff_eq]
  tauto

/-- C7: on every non-empty chunk text that contains no header-start
occurrence (no newline immediately followed by a greater-than sign) and
whose first character is not the greater-than sign, `map` returns its
record with an empty sequence list and raises no error. -/
theorem c7_body_only_chunk (data : Str) (wid cs obj parts : Nat)
    (hne : data ≠ [])
    (hfirst : data.headD ' ' ≠ '>')
    (hnohead : ∀ i, i < data.length →
      ¬(data.getD i ' ' = '\n' ∧ data.getD (i + 1) ' ' = '>')) :
    FASTAPreprocesser.map data wid cs obj parts =
      .ok ⟨wid * cs, FASTAPreprocesser.maxRangeOf wid cs obj parts, []⟩ := by
  have hini : iniHeads data = [] := iniHeads_eq_nil_of data hnohead
  cases data with
  | nil => exact absurd rfl hne
  | cons c rest =>
    have hc : c ≠ '>' := by simpa using hfirst
    simp [FASTAPreprocesser.map, hini, hc]

/-- Witness for C7 at the concrete body-only chunk `"ACGT\n"` of worker 1. -/
theorem c7_body_only_chunk_witness :
    FASTAPreprocesser.map "ACGT\n".toList 1 5 10 2 =
      .ok ⟨1 * 5, FASTAPreprocesser.maxRangeOf 1 5 10 2, []⟩ :=
  c7_body_only_chunk "ACGT\n".toList 1 5 10 2 (by decide) (by decide) (by decide)

/-- C8: the map/reduce branch of `__local_preprocess` raises one of its
two configuration Exceptions exactly when both or neither of `chunk_size`
and `num_workers` are supplied; supplying exactly one of them never
produces a configuration error (a zero value produces a
ZeroDivisionError, which is not a configuration error). -/
theorem c8_config_error_iff (cs nw : Option Nat) (obj : Nat) :
    isCfgError (CloudObject.localPreprocessRanges cs nw obj) = true ↔
      ((cs.isSome = true ∧ nw.isSome = true) ∨ (cs = none ∧ nw = none)) := by
  cases cs with
  | none =>
    cases nw with
    | none => simp [CloudObject.localPreprocessRanges, isCfgError]
    | some w =>
      by_cases hw : w = 0
      · simp [CloudObject.localPreprocessRanges, isCfgError, hw]
      · simp only [CloudObject.localPreprocessRanges]
        rw [if_neg hw]
        by_cases hb : obj < 2 ^ 52 ∧ w < 2 ^ 52
        · rw [if_pos hb]; simp [isCfgError]
        · rw [if_neg hb]; simp [isCfgError]
  | some c =>
    cases nw with
    | none =>
      by_cases hc : c = 0
      · simp [CloudObject.localPreprocessRanges, isCfgError, hc]
      · simp only [CloudObject.localPreprocessRanges]
        rw [if_neg hc]
        by_cases hb : obj < 2 ^ 53 ∧ c < 2 ^ 53
        · rw [if_pos hb]; simp [isCfgError]
        · rw [if_neg hb]; simp [isCfgError]
    | some w => simp [CloudObject.localPreprocessRanges, isCfgError]

/-- Helper for C9: a fold of steps that each fix the state yields the
state. -/
theorem foldlM_ok_fixed (step : List PRecord → Nat → Except Err (List PRecord))
    (s : List PRecord) :
    ∀ is : List Nat, (∀ i ∈ is, step s i = .ok s) →
      List.foldlM step s is = .ok s := by
  intro is
  induction is with
  | nil => intro _; rfl
  | cons a l ih =>
    intro h
    rw [List.foldlM_cons, h a (List.mem_cons_self a l)]
    exact ih fun i hi => h i (List.mem_cons_of_mem a hi)

/-- C9 counterexample: the ordered record list produced by the two-worker
split of the end-to-end object.  `reduce` returns it unchanged, with the
tail-split placeholder `"<_>s 9"` still unresolved in the output, so the
output is not a record list with every placeholder marker resolved into a
final entry. -/
theorem c9_cex_marker_survives_reduce :
    FASTAPreprocesser.reduce
      [⟨0, 11, ["s1\n 1 0 4 4".toList, "<_>s 9".toList]⟩, ⟨11, 18, []⟩] =
    .ok [⟨0, 11, ["s1\n 1 0 4 4".toList, "<_>s 9".toList]⟩, ⟨11, 18, []⟩] ∧
    containsSub "<_>".toList ("<_>s 9".toList) = true :=
  ⟨rfl, rfl⟩

/-- C9 amended: `reduce` returns the same ordered record list and rewrites
a record only through the stitch path, which runs only when the record's
first entry carries the head-split tag and its predecessor is non-empty;
in particular, a record list in which no record's first entry contains the
head-split tag is returned completely unchanged, and placeholder markers
without such a counterpart stay unresolved in the output. -/
theorem c9_amended_reduce_identity_without_markers (rs : List PRecord)
    (h : ∀ r ∈ rs, containsSub ">>".toList (r.sequences.headD []) = false) :
    FASTAPreprocesser.reduce rs = .ok rs := by
  unfold FASTAPreprocesser.reduce
  split
  · apply foldlM_ok_fixed
    intro i hi
    have hilen : i < rs.length := List.mem_range.mp hi
    have hmem : rs.getD i default ∈ rs := by
      rw [List.getD_eq_getElem rs default hilen]
      exact List.getElem_mem hilen
    have hg : FASTAPreprocesser.stitchGuard rs i = false := by
      unfold FASTAPreprocesser.stitchGuard
      rw [h (rs.getD i default) hmem]
      simp
    unfold FASTAPreprocesser.reduceStep
    rw [hg]
    by_cases h0 : i = 0
    · rw [if_pos h0]
    · rw [if_neg h0, if_neg (by simp)]
  · rfl

/-- Witness for C9 at a concrete two-record list without head-split
markers. -/
theorem c9_amended_reduce_identity_without_markers_witness :
    FASTAPreprocesser.reduce [⟨0, 5, ["a 1 0 2 3".toList]⟩, ⟨5, 9, []⟩] =
      .ok [⟨0, 5, ["a 1 0 2 3".toList]⟩, ⟨5, 9, []⟩] :=
  c9_amended_reduce_identity_without_markers _ (by decide)

/-- C2 counterexample: with the valid configuration `num_workers = 3` on
an object of size 10, the partitioner computes `chunk_size = round(10/3)
= 3` and produces the ranges `[0,3), [3,6), [6,9)`: byte 9 of the object
is covered by no range, so the union is not `[0, 10)` and the last range
ends at 9, not at the object size. -/
theorem c2_cex_worker_count_gap :
    CloudObject.localPreprocessRanges none (some 3) 10 =
      .ok [(0, 3), (3, 6), (6, 9)] ∧
    (∀ p ∈ [((0 : Nat), (3 : Nat)), (3, 6), (6, 9)], ¬(p.1 ≤ 9 ∧ 9 < p.2)) ∧
    (9 : Nat) < 10 :=
  ⟨rfl, by decide, by decide⟩

/-- C2 amended: for every positive object size below `2 ^ 53` and a
configuration that supplies a positive `chunk_size` below `2 ^ 53` (and no
`num_workers`) — the region where the float `math.ceil` of the source
provably equals the exact ceiling, see `CloudObject.localPreprocessRanges`
— the produced ranges are non-empty, contiguous, pairwise
non-overlapping, their union is exactly `[0, object_size)`, and the last
range ends at the object size.  (The `num_workers` configuration does not
satisfy this, as the counterexample shows, and above the float bound the
CPython ceiling itself can fall short of the object size.) -/
theorem c2_amended_chunk_size_cover (obj cs : Nat) (hobj : 0 < obj) (hcs : 0 < cs)
    (hobj53 : obj < 2 ^ 53) (hcs53 : cs < 2 ^ 53) :
    ∃ L, CloudObject.localPreprocessRanges (some cs) none obj = .ok L ∧
      L ≠ [] ∧
      (∀ j, j + 1 < L.length → (L.getD j (0, 0)).2 = (L.getD (j + 1) (0, 0)).1) ∧
      (∀ j k, j < k → k < L.length → (L.getD j (0, 0)).2 ≤ (L.getD k (0, 0)).1) ∧
      (∀ x, x < obj ↔ ∃ p ∈ L, p.1 ≤ x ∧ x < p.2) ∧
      (∃ p, L.getLast? = some p ∧ p.2 = obj) := by
  set it := (obj + cs - 1) / cs with hit
  have hdm := Nat.div_add_mod (obj + cs - 1) cs
  have hmod : (obj + cs - 1) % cs < cs := Nat.mod_lt _ hcs
  rw [← hit] at hdm
  have h1 : obj ≤ cs * it := by omega
  have hit1 : 1 ≤ it := by
    rcases Nat.eq_zero_or_pos it with h | h
    · rw [h, Nat.mul_zero] at h1; omega
    · exact h
  have hlast : (it - 1) * cs < obj := by
    have hsub : (it - 1) * cs = cs * it - cs := by
      rw [Nat.sub_mul, Nat.one_mul, Nat.mul_comm]
    rw [hsub]; omega
  have hlen : (rangesFor it cs obj).length = it := by
    simp [rangesFor]
  have hget : ∀ j, j < it →
      (rangesFor it cs obj).getD j (0, 0) = (j * cs, min ((j + 1) * cs) obj) := by
    intro j hj
    unfold rangesFor
    rw [List.getD_eq_getElem?_getD, List.getElem?_map, List.getElem?_range hj]
    rfl
  refine ⟨rangesFor it cs obj, ?_, ?_, ?_, ?_, ?_, ?_⟩
  · simp only [CloudObject.localPreprocessRanges]
    rw [if_neg (by omega), if_pos ⟨hobj53, hcs53⟩]
  · intro hnil
    rw [← List.length_eq_zero] at hnil
    omega
  · intro j hj1
    rw [hlen] at hj1
    rw [hget j (by omega), hget (j + 1) (by omega)]
    have hle : (j + 1) * cs ≤ (it - 1) * cs :=
      Nat.mul_le_mul_right cs (by omega)
    show min ((j + 1) * cs) obj = (j + 1) * cs
    exact min_eq_left (le_of_lt (lt_of_le_of_lt hle hlast))
  · intro j k hjk hk
    rw [hlen] at hk
    rw [hget j (by omega), hget k (by omega)]
    calc min ((j + 1) * cs) obj ≤ (j + 1) * cs := min_le_left _ _
      _ ≤ k * cs := Nat.mul_le_mul_right cs (by omega)
  · intro x
    constructor
    · intro hx
      have hxj : x / cs < it := by
        rw [Nat.div_lt_iff_lt_mul hcs]
        calc x < obj := hx
          _ ≤ cs * it := h1
          _ = it * cs := Nat.mul_comm cs it
      refine ⟨(x / cs * cs, min ((x / cs + 1) * cs) obj), ?_, ?_, ?_⟩
      · unfold rangesFor
        exact List.mem_map.mpr ⟨x / cs, List.mem_range.mpr hxj, rfl⟩
      · exact Nat.div_mul_le_self x cs
      · have hdx := Nat.div_add_mod x cs
        have hmx : x % cs < cs := Nat.mod_lt _ hcs
        have : x < (x / cs + 1) * cs := by
          have : (x / cs + 1) * cs = cs * (x / cs) + cs := by ring
          omega
        exact lt_min this hx
    · rintro ⟨p, hp, hle, hlt⟩
      unfold rangesFor at hp
      rcases List.mem_map.mp hp with ⟨j, _, rfl⟩
      have : x < min ((j + 1) * cs) obj := hlt
      have := min_le_right ((j + 1) * cs) obj
      omega
  · refine ⟨((it - 1) * cs, min ((it - 1 + 1) * cs) obj), ?_, ?_⟩
    · rw [List.getLast?_eq_getElem?, hlen]
      unfold rangesFor
      rw [List.getElem?_map, List.getElem?_range (by omega)]
      rfl
    · have hone : it - 1 + 1 = it := by omega
      rw [hone]
      have : it * cs = cs * it := Nat.mul_comm it cs
      exact min_eq_right (by omega)

/-- Witness for C2 at the concrete configuration `chunk_size = 3`,
`object_size = 10`. -/
theorem c2_amended_chunk_size_cover_witness :
    ∃ L, CloudObject.localPreprocessRanges (some 3) none 10 = .ok L ∧
      L ≠ [] ∧
      (∀ j, j + 1 < L.length → (L.getD j (0, 0)).2 = (L.getD (j + 1) (0, 0)).1) ∧
      (∀ j k, j < k → k < L.length → (L.getD j (0, 0)).2 ≤ (L.getD k (0, 0)).1) ∧
      (∀ x, x < 10 ↔ ∃ p ∈ L, p.1 ≤ x ∧ x < p.2) ∧
      (∃ p, L.getLast? = some p ∧ p.2 = 10) :=
  c2_amended_chunk_size_cover 10 3 (by decide) (by decide) (by norm_num) (by norm_num)
